import Mathlib

/-!
Verification of the execution-context resolution and pipeline-run engine of
the dagster repository, as exercised by
`src/python_modules/dagster/dagster/core/core_tests/test_custom_context.py`.
The engine itself (config type system, context registry, context lifecycle,
`execute_pipeline`) is not shipped in `src/`; it is modelled here from the
specification, and the behaviour pinned by the shipped test file is treated
as authoritative where the two disagree.
-/

namespace Dagster

/-- Modelled from the spec: raw and bound config values consumed by the
config type system (scalar strings and ints, and structured dict values). -/
inductive ConfigValue where
  | str (s : String)
  | int (n : Int)
  | dict (entries : List (String × ConfigValue))

/-- Modelled from the spec: the declared scalar types of config fields
(`types.String`, `types.Int`, `types.Any` in the source's surface syntax).
The claims exercise only one-level dict shapes of scalar fields, so nested
dict-typed fields are not modelled. -/
inductive DagsterType where
  | string
  | int
  | any

/-- Modelled from the spec: runtime type check of a present config value
against a field's declared scalar type. -/
def type_check : DagsterType → ConfigValue → Bool
  | .string, .str _ => true
  | .int, .int _ => true
  | .any, _ => true
  | _, _ => false

/-- Modelled from the spec: a `Field` declaration, carrying a dagster type,
an optionality flag and an optional default value (the source's
`Field(dagster_type=..., is_optional=..., default_value=...)`). -/
structure Field where
  dagster_type : DagsterType
  is_optional : Bool
  default_value : Option ConfigValue

/-- Modelled from the spec: a structured ("dict") config shape — the named
fields of a `ConfigField.config_dict_field` declaration. -/
abbrev ConfigDictShape : Type := List (String × Field)

/-- Modelled from the spec: the error taxonomy.  The shipped test file pins
the class raised for a missing context definition to `DagsterTypeError`
(`test_invalid_context`, line 205), so context-resolution failures use
`type_error` here. -/
inductive DagsterError where
  | type_error (msg : String)
  | invariant_violation (msg : String)
  | step_failure (solid_name : String) (msg : String)

/-- Whether `k` is a declared field name of `shape`. -/
def has_key (shape : ConfigDictShape) (k : String) : Bool :=
  (List.lookup k shape).isSome

/-- Modelled from the spec: field-by-field validation of a raw dict value
against a shape.  A present value is type-checked and bound; an absent field
is filled from its default when one is declared, skipped when optional, and
is an error when required. -/
def validate_fields : ConfigDictShape → List (String × ConfigValue) →
    Except DagsterError (List (String × ConfigValue))
  | [], _ => .ok []
  | (k, f) :: rest, raw =>
    match List.lookup k raw with
    | some v =>
      if type_check f.dagster_type v then
        (validate_fields rest raw).map (fun b => (k, v) :: b)
      else
        .error (.type_error ("Argument mismatch: type mismatch for field " ++ k))
    | none =>
      match f.default_value with
      | some d => (validate_fields rest raw).map (fun b => (k, d) :: b)
      | none =>
        if f.is_optional then
          validate_fields rest raw
        else
          .error (.type_error ("Argument mismatch: missing required field " ++ k))

/-- Modelled from the spec: validation of a raw dict value against a shape.
A key of the raw value that is not declared in the shape is an "argument
mismatch" error; otherwise the fields are validated one by one. -/
def validate_config (shape : ConfigDictShape) (raw : List (String × ConfigValue)) :
    Except DagsterError (List (String × ConfigValue)) :=
  match raw.find? (fun kv => !(has_key shape kv.1)) with
  | some kv => .error (.type_error ("Argument mismatch: undefined field " ++ kv.1))
  | none => validate_fields shape raw

/-- Modelled from the spec: one logger of the multiplexed logger set,
identified by its level. -/
structure Logger where
  level : String

/-- Modelled from the spec: the live `ExecutionContext` threaded through a
run — a resources value, an arbitrary context stack of key/value state, and
the logger set. -/
structure ExecutionContext where
  resources : Option ConfigValue
  context_stack : List (String × ConfigValue)
  loggers : List Logger

/-- Modelled from the spec: `ExecutionContext()` with no arguments — no
resources, no context stack, one console logger at the default INFO level. -/
def ExecutionContext.default : ExecutionContext :=
  ⟨none, [], [⟨"INFO"⟩]⟩

/-- Modelled from the spec: the info object handed to a context-constructing
procedure — the fresh run identifier and the bound context config. -/
structure ContextInit where
  run_id : String
  config : ConfigValue

/-- Modelled from the spec: the result of entering a scoped (generator)
context-constructing procedure — its before-effects, the yielded context,
and the after-effects to run on scope exit. -/
structure ScopedContext where
  before_events : List String
  context : ExecutionContext
  after_events : List String

/-- Modelled from the spec: a context-constructing procedure, which either
returns a context value directly or is a scope-yielding generator. -/
inductive ContextFn where
  | direct (f : ContextInit → ExecutionContext)
  | scoped (f : ContextInit → ScopedContext)

/-- Modelled from the spec: uniform entry of a context-constructing
procedure — a direct procedure has no before- or after-effects. -/
def run_context_fn : ContextFn → ContextInit → ScopedContext
  | .direct f, i => ⟨[], f i, []⟩
  | .scoped f, i => f i

/-- Modelled from the spec: `PipelineContextDefinition` — an optional config
shape paired with a context-constructing procedure. -/
structure PipelineContextDefinition where
  config_field : Option ConfigDictShape
  context_fn : ContextFn

/-- Modelled from the spec: the log level bound in a context config, read by
the synthetic default context definition (INFO when absent). -/
def context_log_level (c : ConfigValue) : String :=
  match c with
  | .dict es =>
    match List.lookup "log_level" es with
    | some (.str s) => s
    | _ => "INFO"
  | _ => "INFO"

/-- Modelled from the spec: the synthetic `default` context definition
installed when a pipeline declares no context definitions.  It requires no
config: its only declared field is the engine's optional `log_level` string
field, defaulting to INFO, and its procedure builds a context with no
resources and one logger at the bound level. -/
def default_context_definition : PipelineContextDefinition :=
  ⟨some [("log_level", ⟨.string, true, some (.str "INFO")⟩)],
   .direct fun init => ⟨none, [], [⟨context_log_level init.config⟩]⟩⟩

/-- Modelled from the spec: the per-step `ExecutionInfo` — the resolved
context, the run identifier and the step's own bound config. -/
structure ExecutionInfo where
  context : ExecutionContext
  run_id : String
  config : ConfigValue

/-- Modelled from the spec: a solid definition — a name, an optional config
shape, and the transform, which may fail. -/
structure SolidDefinition where
  name : String
  config_field : Option ConfigDictShape
  compute : ExecutionInfo → Except String ConfigValue

/-- Modelled from the spec: the per-run environment — the selected context
definition name (`default` when not given), the raw context config, and raw
per-solid configs. -/
structure Environment where
  context_name : String
  context_config : List (String × ConfigValue)
  solid_configs : List (String × List (String × ConfigValue))

/-- Modelled from the spec: `config.Environment()` — the default
environment, selecting the `default` context with empty config. -/
def empty_environment : Environment :=
  ⟨"default", [], []⟩

/-- Modelled from the spec: `PipelineDefinition` — the solids and the named
context definitions. -/
structure PipelineDefinition where
  solids : List SolidDefinition
  context_definitions : List (String × PipelineContextDefinition)

/-- Modelled from the spec: the `PipelineDefinition` constructor — when no
context definitions are supplied, the synthetic `default` entry is
installed. -/
def mk_pipeline (solids : List SolidDefinition)
    (context_definitions : List (String × PipelineContextDefinition)) :
    PipelineDefinition :=
  ⟨solids,
   if context_definitions.isEmpty then
     [("default", default_context_definition)]
   else
     context_definitions⟩

/-- Modelled from the spec: context-definition resolution — a pure lookup by
name; the shipped test pins the error class for a missing name to
`DagsterTypeError`, with a message naming the missing context. -/
def resolve_context (p : PipelineDefinition) (name : String) :
    Except DagsterError PipelineContextDefinition :=
  match List.lookup name p.context_definitions with
  | some cd => .ok cd
  | none => .error (.type_error ("Context " ++ name ++ " does not exist"))

/-- Record of one solid invocation: the solid's name, the info object it was
handed, and its result. -/
structure StepRecord where
  name : String
  info : ExecutionInfo
  result : Except String ConfigValue

/-- Result of running the solid list: the emitted solid trace events, the
step records, and the outcome. -/
structure SolidsResult where
  trace : List String
  steps : List StepRecord
  outcome : Except DagsterError Unit

/-- Modelled from the spec: execution of the solids in declaration
(dependency) order.  Each solid's own config is validated, the solid is
invoked with its `ExecutionInfo`, and on a failure the remaining solids are
skipped when `throw_on_error` is set, and are still run (the failure being
reported per-step rather than raised) when it is not. -/
def execute_solids (env : Environment) (context : ExecutionContext)
    (run_id : String) (throw_on_error : Bool) :
    List SolidDefinition → SolidsResult
  | [] => ⟨[], [], .ok ()⟩
  | s :: rest =>
    match validate_config (s.config_field.getD [])
        ((List.lookup s.name env.solid_configs).getD []) with
    | .error e => ⟨[], [], .error e⟩
    | .ok bound =>
      let info : ExecutionInfo := ⟨context, run_id, .dict bound⟩
      match s.compute info with
      | .error msg =>
        if throw_on_error then
          ⟨[s.name], [⟨s.name, info, .error msg⟩], .error (.step_failure s.name msg)⟩
        else
          let r := execute_solids env context run_id throw_on_error rest
          ⟨s.name :: r.trace, ⟨s.name, info, .error msg⟩ :: r.steps, r.outcome⟩
      | .ok v =>
        let r := execute_solids env context run_id throw_on_error rest
        ⟨s.name :: r.trace, ⟨s.name, info, .ok v⟩ :: r.steps, r.outcome⟩

/-- Result of a whole run: the observed effect trace (context before-effects,
one event per executed solid, context after-effects), the info handed to the
context-constructing procedure (`none` when construction was never reached),
the step records, and the outcome. -/
structure RunResult where
  trace : List String
  context_init : Option ContextInit
  steps : List StepRecord
  outcome : Except DagsterError Unit

/-- Modelled from the spec: the run engine at a fixed run identifier —
resolve the context definition, validate the context config, enter context
construction, execute the solids, and run the context after-effects on every
exit path. -/
def execute_pipeline_core (p : PipelineDefinition) (env : Environment)
    (throw_on_error : Bool) (run_id : String) : RunResult :=
  match resolve_context p env.context_name with
  | .error e => ⟨[], none, [], .error e⟩
  | .ok cdef =>
    match validate_config (cdef.config_field.getD []) env.context_config with
    | .error e => ⟨[], none, [], .error e⟩
    | .ok bound =>
      let init : ContextInit := ⟨run_id, .dict bound⟩
      let sc := run_context_fn cdef.context_fn init
      let sr := execute_solids env sc.context run_id throw_on_error p.solids
      ⟨sc.before_events ++ sr.trace ++ sc.after_events, some init, sr.steps, sr.outcome⟩

/-- Modelled from the spec: the engine's fresh-run-identifier supply.  The
source draws a universally-unique UUID string per run; the model abstracts
the UUID format to an injective token supply indexed by a run sequence
number. -/
def gen_run_id (n : Nat) : String :=
  String.mk (List.replicate n 'r')

/-- Modelled from the spec: `execute_pipeline` — a run with a freshly
generated run identifier. -/
def execute_pipeline (p : PipelineDefinition) (env : Environment)
    (throw_on_error : Bool) (run_seq : Nat) : RunResult :=
  execute_pipeline_core p env throw_on_error (gen_run_id run_seq)

/-! ### Concrete pipelines and environments from `test_custom_context.py` -/

/-- Whether an info's context loggers are all at level INFO — the assertion
body of `default_context_transform` in `test_default_context` and
`test_default_context_with_log_level`. -/
def loggers_all_info (i : ExecutionInfo) : Bool :=
  i.context.loggers.all (fun l => l.level == "INFO")

/-- The solid of `test_default_context_with_log_level`: asserts that every
observed logger is at level INFO. -/
def default_context_transform : SolidDefinition :=
  ⟨"default_context_transform", none,
   fun i => if loggers_all_info i then .ok (.dict []) else .error "logger level is not INFO"⟩

/-- The pipeline of `test_default_context_with_log_level`: one context-free
solid, no context definitions supplied. -/
def log_pipeline : PipelineDefinition :=
  mk_pipeline [default_context_transform] []

/-- Environment of `test_default_context_with_log_level`, passing branch:
the default context with config `{log_level: 'INFO'}`. -/
def env_log_level_ok : Environment :=
  ⟨"default", [("log_level", .str "INFO")], []⟩

/-- Environment of `test_default_context_with_log_level`, failing branch:
the default context with the mistyped config `{log_level: 2}`. -/
def env_log_level_bad : Environment :=
  ⟨"default", [("log_level", .int 2)], []⟩

/-- Whether an info's resources are exactly `{field_one: 'value_two'}` — the
assertion body of `custom_context_transform` in `test_custom_contexts` and
`test_yield_context`. -/
def resources_are_value_two (i : ExecutionInfo) : Bool :=
  match i.context.resources with
  | some (.dict [(k, .str v)]) => k == "field_one" && v == "value_two"
  | _ => false

/-- The solid of `test_custom_contexts`: asserts
`resources == {field_one: 'value_two'}`. -/
def custom_context_transform : SolidDefinition :=
  ⟨"custom_context_transform", none,
   fun i => if resources_are_value_two i then .ok (.dict []) else .error "unexpected resources"⟩

/-- The shared config shape of `custom_one` and `custom_two` in
`test_custom_contexts`: one required string field `field_one`. -/
def custom_dict_shape : ConfigDictShape :=
  [("field_one", ⟨.string, false, none⟩)]

/-- The context-constructing procedure used throughout the tests:
`lambda info: ExecutionContext(resources=info.config)`. -/
def resources_from_config_fn : ContextFn :=
  .direct fun init => ⟨some init.config, [], [⟨"INFO"⟩]⟩

/-- The pipeline of `test_custom_contexts`: one solid and the two named
context definitions `custom_one` and `custom_two`. -/
def custom_contexts_pipeline : PipelineDefinition :=
  mk_pipeline [custom_context_transform]
    [("custom_one", ⟨some custom_dict_shape, resources_from_config_fn⟩),
     ("custom_two", ⟨some custom_dict_shape, resources_from_config_fn⟩)]

/-- Environment selecting `custom_one` with `{field_one: 'value_two'}`. -/
def env_custom_one : Environment :=
  ⟨"custom_one", [("field_one", .str "value_two")], []⟩

/-- Environment selecting `custom_two` with `{field_one: 'value_two'}`. -/
def env_custom_two : Environment :=
  ⟨"custom_two", [("field_one", .str "value_two")], []⟩

/-- Whether an info's resources are exactly `{field_one: 'heyo'}` — the
assertion body of the solid built in `test_default_value`. -/
def resources_are_heyo (i : ExecutionInfo) : Bool :=
  match i.context.resources with
  | some (.dict [(k, .str v)]) => k == "field_one" && v == "heyo"
  | _ => false

/-- The solid of `test_default_value`: asserts
`resources == {field_one: 'heyo'}`. -/
def config_test_solid : SolidDefinition :=
  ⟨"config_test", none,
   fun i => if resources_are_heyo i then .ok (.dict []) else .error "unexpected resources"⟩

/-- The pipeline of `test_default_value`: the config shape declares
`field_one` as an optional string with default value `'heyo'`. -/
def default_value_pipeline : PipelineDefinition :=
  mk_pipeline [config_test_solid]
    [("custom_one",
      ⟨some [("field_one", ⟨.string, true, some (.str "heyo")⟩)],
       resources_from_config_fn⟩)]

/-- Environment of `test_default_value`: `custom_one` with empty config. -/
def env_default_value : Environment :=
  ⟨"custom_one", [], []⟩

/-- Whether an info matches both assertions of the yield-context solid:
`resources == {field_one: 'value_two'}` and `context_stack['foo'] == 'bar'`. -/
def yield_solid_assertions (i : ExecutionInfo) : Bool :=
  resources_are_value_two i &&
    match List.lookup "foo" i.context.context_stack with
    | some (.str s) => s == "bar"
    | _ => false

/-- The solid of `test_yield_context`. -/
def yield_context_transform : SolidDefinition :=
  ⟨"custom_context_transform", none,
   fun i => if yield_solid_assertions i then .ok (.dict []) else .error "unexpected context"⟩

/-- The scope-yielding context-constructing procedure of
`test_yield_context`: append `'before'`, yield
`ExecutionContext(resources=info.config, context_stack={foo: bar})`, append
`'after'` after the consuming scope exits. -/
def yield_context_fn : ContextFn :=
  .scoped fun init =>
    ⟨["before"],
     ⟨some init.config, [("foo", .str "bar")], [⟨"INFO"⟩]⟩,
     ["after"]⟩

/-- The pipeline of `test_yield_context`. -/
def yield_pipeline : PipelineDefinition :=
  mk_pipeline [yield_context_transform]
    [("custom_one", ⟨some custom_dict_shape, yield_context_fn⟩)]

/-- A variant of the yield-context pipeline whose solid always raises, used
to observe the after-effect on the failing exit path. -/
def yield_failing_pipeline : PipelineDefinition :=
  mk_pipeline
    [⟨"failing_transform", none, fun _ => .error "boom"⟩]
    [("custom_one", ⟨some custom_dict_shape, yield_context_fn⟩)]

/-- The solid of `test_invalid_context`: raises unconditionally, to witness
that it is never invoked. -/
def never_transform : SolidDefinition :=
  ⟨"never_transform", none, fun _ => .error "should never execute"⟩

/-- The pipeline of `test_invalid_context` with only the synthetic default
context. -/
def default_context_pipeline : PipelineDefinition :=
  mk_pipeline [never_transform] []

/-- Environment of `test_invalid_context` selecting the undeclared context
name `not_found`. -/
def env_not_found : Environment :=
  ⟨"not_found", [], []⟩

/-- Environment of `test_invalid_context` supplying the undeclared context
config key `unexpected`. -/
def env_unexpected : Environment :=
  ⟨"default", [("unexpected", .str "value")], []⟩

/-- The pipeline of `test_invalid_context` whose default context requires a
`string_field` string config field. -/
def with_argful_context_pipeline : PipelineDefinition :=
  mk_pipeline [never_transform]
    [("default",
      ⟨some [("string_field", ⟨.string, false, none⟩)],
       resources_from_config_fn⟩)]

/-- Environment of `test_invalid_context` supplying no config where
`string_field` is required. -/
def env_no_config : Environment :=
  ⟨"default", [], []⟩

/-- Environment of `test_invalid_context` supplying the mistyped
`{string_field: 1}`. -/
def env_type_mismatch : Environment :=
  ⟨"default", [("string_field", .int 1)], []⟩

/-- The pipeline of `test_run_id`: no solids, and a `default` context
definition with no config shape. -/
def run_id_pipeline : PipelineDefinition :=
  mk_pipeline []
    [("default", ⟨none, .direct fun _ => ExecutionContext.default⟩)]

/-- A context-free solid that always succeeds, used to instantiate the
general theorems about pipelines of arbitrary solids. -/
def noop_solid : SolidDefinition :=
  ⟨"noop", none, fun _ => .ok (.dict [])⟩

/-- The per-field obligation that a successful validation certifies for the
field's lookup result in the raw value: a present value satisfies the
declared type, and an absent field has a default or is optional. -/
def field_ok (f : Field) : Option ConfigValue → Prop
  | some v => type_check f.dagster_type v = true
  | none => f.default_value.isSome = true ∨ f.is_optional = true

/-- A field whose declared default value (if any) satisfies its own declared
type. -/
def field_wf (f : Field) : Bool :=
  match f.default_value with
  | none => true
  | some d => type_check f.dagster_type d

/-- A well-formed shape: field names are unique (the spec's invariant on
structured shapes) and declared defaults satisfy their declared types. -/
def shape_wf (shape : ConfigDictShape) : Prop :=
  (shape.map Prod.fst).Nodup ∧ ∀ kf ∈ shape, field_wf kf.2 = true

/-! ### Helper lemmas -/

/-- Inversion of `Except.map` at an `ok` result. -/
theorem except_map_ok {α β γ : Type} (g : α → β) (x : Except γ α) (b : β)
    (h : x.map g = .ok b) : ∃ a, x = .ok a ∧ b = g a := by
  cases x with
  | error e => simp [Except.map] at h
  | ok a => exact ⟨a, rfl, by simpa [Except.map] using h.symm⟩

/-- An association-list lookup that hits yields a member of the list. -/
theorem mem_of_lookup_some {β : Type} (k : String) (v : β)
    (l : List (String × β)) (h : List.lookup k l = some v) : (k, v) ∈ l := by
  induction l with
  | nil => exact Option.noConfusion h
  | cons p rest ih =>
    obtain ⟨k2, x⟩ := p
    simp only [List.lookup] at h
    cases hkk : k == k2 with
    | true =>
      rw [hkk] at h
      injection h with h2
      subst h2
      have hk : k = k2 := eq_of_beq hkk
      subst hk
      exact List.mem_cons_self _ _
    | false =>
      rw [hkk] at h
      exact List.mem_cons_of_mem _ (ih h)

/-- Lookup skips a head entry with a different key. -/
theorem lookup_cons_ne {β : Type} (key k : String) (x : β)
    (l : List (String × β)) (h : key ≠ k) :
    List.lookup k ((key, x) :: l) = List.lookup k l := by
  simp [List.lookup, beq_eq_false_iff_ne.mpr (Ne.symm h)]

/-- Lookup hits a head entry with the same key. -/
theorem lookup_cons_self {β : Type} (k : String) (x : β) (l : List (String × β)) :
    List.lookup k ((k, x) :: l) = some x := by
  simp [List.lookup]

/-- Lookup misses when the key is not among the list's keys. -/
theorem lookup_none_of_not_mem_keys {β : Type} (k : String)
    (l : List (String × β)) (h : k ∉ l.map Prod.fst) : List.lookup k l = none := by
  cases hl : List.lookup k l with
  | none => rfl
  | some v => exact absurd (List.mem_map_of_mem Prod.fst (mem_of_lookup_some k v l hl)) h

/-- Field validation only ever fails with a `type_error`. -/
theorem validate_fields_error_class (shape : ConfigDictShape)
    (raw : List (String × ConfigValue)) (e : DagsterError)
    (h : validate_fields shape raw = .error e) : ∃ m, e = .type_error m := by
  induction shape with
  | nil => exact Except.noConfusion h
  | cons kf rest ih =>
    obtain ⟨k, f⟩ := kf
    simp only [validate_fields] at h
    cases hl : List.lookup k raw with
    | some v =>
      simp only [hl] at h
      by_cases ht : type_check f.dagster_type v
      · simp only [ht, if_true] at h
        cases hr : validate_fields rest raw with
        | error e2 =>
          simp only [hr, Except.map] at h
          injection h with h2
          subst h2
          exact ih hr
        | ok b => simp only [hr, Except.map] at h; exact Except.noConfusion h
      · simp only [ht, if_false] at h
        cases h
        exact ⟨_, rfl⟩
    | none =>
      simp only [hl] at h
      cases hd : f.default_value with
      | some d =>
        simp only [hd] at h
        cases hr : validate_fields rest raw with
        | error e2 =>
          simp only [hr, Except.map] at h
          injection h with h2
          subst h2
          exact ih hr
        | ok b => simp only [hr, Except.map] at h; exact Except.noConfusion h
      | none =>
        simp only [hd] at h
        by_cases ho : f.is_optional
        · simp only [ho, if_true] at h
          exact ih h
        · simp only [ho, if_false] at h
          cases h
          exact ⟨_, rfl⟩

/-- Config validation only ever fails with a `type_error`. -/
theorem validate_config_error_class (shape : ConfigDictShape)
    (raw : List (String × ConfigValue)) (e : DagsterError)
    (h : validate_config shape raw = .error e) : ∃ m, e = .type_error m := by
  simp only [validate_config] at h
  cases hf : raw.find? (fun kv => !(has_key shape kv.1)) with
  | some kv => simp only [hf] at h; cases h; exact ⟨_, rfl⟩
  | none => simp only [hf] at h; exact validate_fields_error_class shape raw e h

/-- A successful config validation passed the undefined-key scan and the
field-by-field pass. -/
theorem validate_config_ok_fields (shape : ConfigDictShape)
    (raw b : List (String × ConfigValue))
    (h : validate_config shape raw = .ok b) :
    raw.find? (fun kv => !(has_key shape kv.1)) = none ∧
      validate_fields shape raw = .ok b := by
  simp only [validate_config] at h
  cases hf : raw.find? (fun kv => !(has_key shape kv.1)) with
  | some kv => simp only [hf] at h; exact Except.noConfusion h
  | none => simp only [hf] at h; exact ⟨rfl, h⟩

/-- A successful field validation certifies `field_ok` for every declared
field. -/
theorem validate_fields_ok_mem (shape : ConfigDictShape)
    (raw b : List (String × ConfigValue))
    (h : validate_fields shape raw = .ok b) :
    ∀ kf ∈ shape, field_ok kf.2 (List.lookup kf.1 raw) := by
  induction shape generalizing b with
  | nil => intro kf hkf; exact absurd hkf (List.not_mem_nil kf)
  | cons kf0 rest ih =>
    obtain ⟨k, f⟩ := kf0
    intro kf hkf
    simp only [validate_fields] at h
    cases hl : List.lookup k raw with
    | some v =>
      simp only [hl] at h
      by_cases ht : type_check f.dagster_type v
      · simp only [ht, if_true] at h
        cases hr : validate_fields rest raw with
        | error e2 => simp only [hr, Except.map] at h; exact Except.noConfusion h
        | ok b2 =>
          rcases List.mem_cons.mp hkf with hkf | hkf
          · subst hkf; simpa [field_ok, hl] using ht
          · exact ih b2 hr kf hkf
      · simp only [ht, if_false] at h; exact Except.noConfusion h
    | none =>
      simp only [hl] at h
      cases hd : f.default_value with
      | some d =>
        simp only [hd] at h
        cases hr : validate_fields rest raw with
        | error e2 => simp only [hr, Except.map] at h; exact Except.noConfusion h
        | ok b2 =>
          rcases List.mem_cons.mp hkf with hkf | hkf
          · subst hkf; simp [field_ok, hl, hd]
          · exact ih b2 hr kf hkf
      | none =>
        simp only [hd] at h
        by_cases ho : f.is_optional
        · simp only [ho, if_true] at h
          rcases List.mem_cons.mp hkf with hkf | hkf
          · subst hkf; simp [field_ok, hl, ho]
          · exact ih b h kf hkf
        · simp only [ho, if_false] at h; exact Except.noConfusion h

/-- A raw value holding an undeclared key never validates. -/
theorem validate_config_undefined_key (shape : ConfigDictShape)
    (raw : List (String × ConfigValue)) (k : String) (v : ConfigValue)
    (hmem : (k, v) ∈ raw) (hk : has_key shape k = false) :
    ∃ m, validate_config shape raw = .error (.type_error m) := by
  cases h : validate_config shape raw with
  | error e =>
    obtain ⟨m, hm⟩ := validate_config_error_class shape raw e h
    exact ⟨m, by rw [hm]⟩
  | ok b =>
    obtain ⟨hfind, _⟩ := validate_config_ok_fields shape raw b h
    have := List.find?_eq_none.mp hfind (k, v) hmem
    simp [hk] at this

/-- A raw value missing a required field (no default, not optional) never
validates. -/
theorem validate_config_missing_required (shape : ConfigDictShape)
    (raw : List (String × ConfigValue)) (k : String) (f : Field)
    (hmem : (k, f) ∈ shape) (habs : List.lookup k raw = none)
    (hreq : f.is_optional = false) (hnd : f.default_value = none) :
    ∃ e, validate_config shape raw = .error e := by
  cases h : validate_config shape raw with
  | error e => exact ⟨e, rfl⟩
  | ok b =>
    obtain ⟨_, hfields⟩ := validate_config_ok_fields shape raw b h
    have := validate_fields_ok_mem shape raw b hfields (k, f) hmem
    rw [habs] at this
    simp [field_ok, hreq, hnd] at this

/-- A raw value whose present value fails the declared type check never
validates. -/
theorem validate_config_type_mismatch (shape : ConfigDictShape)
    (raw : List (String × ConfigValue)) (k : String) (f : Field) (v : ConfigValue)
    (hmem : (k, f) ∈ shape) (hlook : List.lookup k raw = some v)
    (hty : type_check f.dagster_type v = false) :
    ∃ e, validate_config shape raw = .error e := by
  cases h : validate_config shape raw with
  | error e => exact ⟨e, rfl⟩
  | ok b =>
    obtain ⟨_, hfields⟩ := validate_config_ok_fields shape raw b h
    have := validate_fields_ok_mem shape raw b hfields (k, f) hmem
    rw [hlook] at this
    simp [field_ok, hty] at this

/-- The solid trace is exactly the names of the recorded steps. -/
theorem execute_solids_trace_eq (env : Environment) (c : ExecutionContext)
    (rid : String) (toe : Bool) (L : List SolidDefinition) :
    (execute_solids env c rid toe L).trace
      = (execute_solids env c rid toe L).steps.map StepRecord.name := by
  induction L with
  | nil => rfl
  | cons s rest ih =>
    simp only [execute_solids]
    split
    · rfl
    · split
      · split
        · rfl
        · simpa using ih
      · simpa using ih

/-- Every recorded step was handed the run identifier and the constructed
context unchanged. -/
theorem execute_solids_info (env : Environment) (c : ExecutionContext)
    (rid : String) (toe : Bool) (L : List SolidDefinition) :
    ∀ r ∈ (execute_solids env c rid toe L).steps,
      r.info.run_id = rid ∧ r.info.context = c := by
  induction L with
  | nil => intro r hr; simp [execute_solids] at hr
  | cons s rest ih =>
    intro r hr
    simp only [execute_solids] at hr
    split at hr
    · simp at hr
    · split at hr
      · split at hr
        · simp at hr; subst hr; exact ⟨rfl, rfl⟩
        · simp at hr
          rcases hr with h | h
          · subst h; exact ⟨rfl, rfl⟩
          · exact ih r h
      · simp at hr
        rcases hr with h | h
        · subst h; exact ⟨rfl, rfl⟩
        · exact ih r h

/-- On a successful outcome every declared solid ran, in declaration
order. -/
theorem execute_solids_ok_names (env : Environment) (c : ExecutionContext)
    (rid : String) (toe : Bool) (L : List SolidDefinition)
    (h : (execute_solids env c rid toe L).outcome = .ok ()) :
    (execute_solids env c rid toe L).steps.map StepRecord.name
      = L.map SolidDefinition.name := by
  induction L with
  | nil => rfl
  | cons s rest ih =>
    simp only [execute_solids] at h ih ⊢
    cases hv : validate_config (s.config_field.getD [])
        ((List.lookup s.name env.solid_configs).getD []) with
    | error e => simp only [hv] at h; exact Except.noConfusion h
    | ok bound =>
      simp only [hv] at h ⊢
      cases hc : s.compute ⟨c, rid, .dict bound⟩ with
      | error msg =>
        simp only [hc] at h ⊢
        cases toe with
        | true => exact Except.noConfusion h
        | false => simpa using ih (by simpa using h)
      | ok v =>
        simp only [hc] at h ⊢
        simpa using ih (by simpa using h)

/-- Under `throw_on_error`, a step-failure outcome means the solids up to
and including the failing one ran, and no later one. -/
theorem execute_solids_failure_names (env : Environment) (c : ExecutionContext)
    (rid : String) (L : List SolidDefinition) (sname m : String)
    (h : (execute_solids env c rid true L).outcome = .error (.step_failure sname m)) :
    ∃ k, ∃ hk : k < L.length,
      (L.get ⟨k, hk⟩).name = sname ∧
      (execute_solids env c rid true L).steps.map StepRecord.name
        = (L.take (k+1)).map SolidDefinition.name := by
  induction L with
  | nil => exact Except.noConfusion h
  | cons s rest ih =>
    simp only [execute_solids] at h ih ⊢
    cases hv : validate_config (s.config_field.getD [])
        ((List.lookup s.name env.solid_configs).getD []) with
    | error e =>
      simp only [hv] at h
      obtain ⟨m2, hm2⟩ := validate_config_error_class _ _ _ hv
      cases h
      exact DagsterError.noConfusion (hm2.symm.trans rfl)
    | ok bound =>
      simp only [hv] at h ⊢
      cases hc : s.compute ⟨c, rid, .dict bound⟩ with
      | error msg =>
        simp only [hc] at h ⊢
        simp at h
        refine ⟨0, by simp, ?_, ?_⟩
        · simpa using h.1
        · simp
      | ok v =>
        simp only [hc] at h ⊢
        rcases ih (by simpa using h) with ⟨k, hk, hname, hnames⟩
        refine ⟨k + 1, by simpa using Nat.succ_lt_succ hk, by simpa using hname, ?_⟩
        simpa using hnames

/-- When every solid is config-free and cannot fail, execution runs them
all in order against the constructed context. -/
theorem execute_solids_all_ok (env : Environment) (c : ExecutionContext)
    (rid : String) (toe : Bool) (L : List SolidDefinition)
    (hsc : env.solid_configs = [])
    (hcf : ∀ s ∈ L, s.config_field = none)
    (hok : ∀ s ∈ L, ∀ i, (s.compute i).isOk = true) :
    execute_solids env c rid toe L =
      ⟨L.map SolidDefinition.name,
       L.map (fun s => ⟨s.name, ⟨c, rid, .dict []⟩, s.compute ⟨c, rid, .dict []⟩⟩),
       .ok ()⟩ := by
  induction L with
  | nil => rfl
  | cons s rest ih =>
    have hcfs : s.config_field = none := hcf s (List.mem_cons_self s rest)
    have hv : validate_config (s.config_field.getD [])
        ((List.lookup s.name env.solid_configs).getD []) = .ok [] := by
      rw [hcfs, hsc]; rfl
    simp only [execute_solids, hv]
    cases hc : s.compute ⟨c, rid, .dict []⟩ with
    | error msg =>
      have := hok s (List.mem_cons_self s rest) ⟨c, rid, .dict []⟩
      rw [hc] at this
      exact Bool.noConfusion this
    | ok v =>
      rw [ih (fun x hx => hcf x (List.mem_cons_of_mem s hx))
          (fun x hx => hok x (List.mem_cons_of_mem s hx))]
      simp [hc]

/-- Validating an extended raw value whose extra head entry matches no
declared field is the same as validating without it. -/
theorem validate_fields_skip_head (shape : ConfigDictShape) (key : String)
    (x : ConfigValue) (l : List (String × ConfigValue))
    (h : ∀ kf ∈ shape, kf.1 ≠ key) :
    validate_fields shape ((key, x) :: l) = validate_fields shape l := by
  induction shape with
  | nil => rfl
  | cons kf0 rest ih =>
    obtain ⟨k, f⟩ := kf0
    have hne : key ≠ k := (h (k, f) (List.mem_cons_self _ _)).symm
    have ihr := ih (fun kf hkf => h kf (List.mem_cons_of_mem _ hkf))
    simp only [validate_fields, lookup_cons_ne key k x l hne, ihr]

/-- Every key bound by a successful field validation is a declared field
name of the shape. -/
theorem validate_fields_keys (shape : ConfigDictShape)
    (raw b : List (String × ConfigValue))
    (h : validate_fields shape raw = .ok b) :
    ∀ kv ∈ b, has_key shape kv.1 = true := by
  induction shape generalizing b with
  | nil =>
    intro kv hkv
    simp only [validate_fields] at h
    injection h with h2
    subst h2
    exact absurd hkv (List.not_mem_nil kv)
  | cons kf0 rest ih =>
    obtain ⟨k, f⟩ := kf0
    intro kv hkv
    have lift : ∀ key, has_key rest key = true → has_key ((k, f) :: rest) key = true := by
      intro key hk
      simp only [has_key, List.lookup] at hk ⊢
      cases hkk : key == k with
      | true => simp [hkk]
      | false => simp only [hkk]; exact hk
    simp only [validate_fields] at h
    cases hl : List.lookup k raw with
    | some v =>
      simp only [hl] at h
      by_cases ht : type_check f.dagster_type v
      · simp only [ht, if_true] at h
        cases hr : validate_fields rest raw with
        | error e2 => simp only [hr, Except.map] at h; exact Except.noConfusion h
        | ok b2 =>
          simp only [hr, Except.map] at h
          injection h with h2
          subst h2
          rcases List.mem_cons.mp hkv with hkv | hkv
          · subst hkv; simp [has_key, List.lookup]
          · exact lift kv.1 (ih b2 hr kv hkv)
      · simp only [ht, if_false] at h; exact Except.noConfusion h
    | none =>
      simp only [hl] at h
      cases hd : f.default_value with
      | some d =>
        simp only [hd] at h
        cases hr : validate_fields rest raw with
        | error e2 => simp only [hr, Except.map] at h; exact Except.noConfusion h
        | ok b2 =>
          simp only [hr, Except.map] at h
          injection h with h2
          subst h2
          rcases List.mem_cons.mp hkv with hkv | hkv
          · subst hkv; simp [has_key, List.lookup]
          · exact lift kv.1 (ih b2 hr kv hkv)
      | none =>
        simp only [hd] at h
        by_cases ho : f.is_optional
        · simp only [ho, if_true] at h
          exact lift kv.1 (ih b h kv hkv)
        · simp only [ho, if_false] at h; exact Except.noConfusion h

/-- The bound value of a successful field validation holds no key outside
the shape's declared field names. -/
theorem validate_fields_lookup_none (shape : ConfigDictShape)
    (raw b : List (String × ConfigValue)) (key : String)
    (h : validate_fields shape raw = .ok b) (hk : has_key shape key = false) :
    List.lookup key b = none := by
  cases hl : List.lookup key b with
  | none => rfl
  | some v =>
    have hmem : (key, v) ∈ b := mem_of_lookup_some key v b hl
    have := validate_fields_keys shape raw b h (key, v) hmem
    rw [hk] at this
    exact Bool.noConfusion this

/-- Field validation of a well-formed shape is idempotent: the bound value
re-validates to itself. -/
theorem validate_fields_idem (shape : ConfigDictShape)
    (raw b : List (String × ConfigValue))
    (hnd : (shape.map Prod.fst).Nodup)
    (hwf : ∀ kf ∈ shape, field_wf kf.2 = true)
    (h : validate_fields shape raw = .ok b) :
    validate_fields shape b = .ok b := by
  induction shape generalizing b with
  | nil =>
    simp only [validate_fields] at h
    injection h with h2
    subst h2
    rfl
  | cons kf0 rest ih =>
    obtain ⟨k, f⟩ := kf0
    have hnd2' : (k :: rest.map Prod.fst).Nodup := by simpa using hnd
    have hnd2 := List.nodup_cons.mp hnd2'
    have hnotin : k ∉ rest.map Prod.fst := hnd2.1
    have hne : ∀ kf ∈ rest, kf.1 ≠ k := by
      intro kf hkf heq
      exact hnotin (heq ▸ List.mem_map_of_mem Prod.fst hkf)
    have hwfr : ∀ kf ∈ rest, field_wf kf.2 = true :=
      fun kf hkf => hwf kf (List.mem_cons_of_mem _ hkf)
    have ihr := fun b2 hr => ih b2 hnd2.2 hwfr hr
    simp only [validate_fields] at h
    cases hl : List.lookup k raw with
    | some v =>
      simp only [hl] at h
      by_cases ht : type_check f.dagster_type v
      · simp only [ht, if_true] at h
        obtain ⟨b2, hr, hb⟩ := except_map_ok _ _ _ h
        subst hb
        simp only [validate_fields, lookup_cons_self, ht, if_true,
          validate_fields_skip_head rest k v b2 hne, ihr b2 hr, Except.map]
      · simp only [ht, if_false] at h; exact Except.noConfusion h
    | none =>
      simp only [hl] at h
      cases hd : f.default_value with
      | some d =>
        simp only [hd] at h
        obtain ⟨b2, hr, hb⟩ := except_map_ok _ _ _ h
        subst hb
        have htd : type_check f.dagster_type d = true := by
          have := hwf (k, f) (List.mem_cons_self _ _)
          simpa [field_wf, hd] using this
        simp only [validate_fields, lookup_cons_self, htd, if_true,
          validate_fields_skip_head rest k d b2 hne, ihr b2 hr, Except.map]
      | none =>
        simp only [hd] at h
        by_cases ho : f.is_optional
        · simp only [ho, if_true] at h
          have hkb : List.lookup k b = none := by
            apply validate_fields_lookup_none rest raw b k h
            simp [has_key, lookup_none_of_not_mem_keys k rest hnotin]
          simp only [validate_fields, hkb, hd, ho, if_true]
          exact ihr b h
        · simp only [ho, if_false] at h; exact Except.noConfusion h

/-- Config validation of a well-formed shape is idempotent. -/
theorem validate_config_idem (shape : ConfigDictShape)
    (raw b : List (String × ConfigValue)) (hwf : shape_wf shape)
    (h : validate_config shape raw = .ok b) :
    validate_config shape b = .ok b := by
  obtain ⟨hfind, hfields⟩ := validate_config_ok_fields shape raw b h
  have hkeys := validate_fields_keys shape raw b hfields
  have hfind2 : b.find? (fun kv => !(has_key shape kv.1)) = none := by
    apply List.find?_eq_none.mpr
    intro kv hkv
    simp [hkeys kv hkv]
  simp only [validate_config, hfind2]
  exact validate_fields_idem shape raw b hwf.1 hwf.2 hfields

/-- The run-identifier supply is injective: distinct runs get distinct
identifiers. -/
theorem gen_run_id_inj (m n : Nat) (h : gen_run_id m = gen_run_id n) : m = n := by
  have hl : (gen_run_id m).data.length = (gen_run_id n).data.length := by rw [h]
  simpa [gen_run_id] using hl

/-! ### Claim theorems -/

/-- C1: for every run whose selected context definition has a scope-yielding
(generator) context-constructing procedure, the observed effect trace is
always before-effects, then one event per executed solid in order, then
after-effects; on a successful run the executed solids are exactly the
pipeline's solids in dependency order, and on a step failure they are the
solids up to and including the failing one — the after-effects still occur
on every exit path. -/
theorem scoped_context_effect_ordering
    (p : PipelineDefinition) (env : Environment) (n : Nat)
    (cdef : PipelineContextDefinition) (f : ContextInit → ScopedContext)
    (bound : List (String × ConfigValue))
    (hres : resolve_context p env.context_name = .ok cdef)
    (hfn : cdef.context_fn = .scoped f)
    (hval : validate_config (cdef.config_field.getD []) env.context_config = .ok bound) :
    (execute_pipeline p env true n).trace
        = (f ⟨gen_run_id n, .dict bound⟩).before_events
          ++ (execute_pipeline p env true n).steps.map StepRecord.name
          ++ (f ⟨gen_run_id n, .dict bound⟩).after_events
    ∧ ((execute_pipeline p env true n).outcome = .ok () →
        (execute_pipeline p env true n).trace
          = (f ⟨gen_run_id n, .dict bound⟩).before_events
            ++ p.solids.map SolidDefinition.name
            ++ (f ⟨gen_run_id n, .dict bound⟩).after_events)
    ∧ (∀ s m, (execute_pipeline p env true n).outcome = .error (.step_failure s m) →
        ∃ k, ∃ hk : k < p.solids.length,
          (p.solids.get ⟨k, hk⟩).name = s ∧
          (execute_pipeline p env true n).trace
            = (f ⟨gen_run_id n, .dict bound⟩).before_events
              ++ (p.solids.take (k+1)).map SolidDefinition.name
              ++ (f ⟨gen_run_id n, .dict bound⟩).after_events) := by
  simp only [execute_pipeline, execute_pipeline_core, hres, hval, hfn, run_context_fn]
  refine ⟨?_, ?_, ?_⟩
  · simp [execute_solids_trace_eq]
  · intro hok
    simp only [execute_solids_trace_eq]
    rw [execute_solids_ok_names _ _ _ _ _ hok]
  · intro s m hfail
    obtain ⟨k, hk, hname, hnames⟩ :=
      execute_solids_failure_names _ _ _ _ _ _ hfail
    refine ⟨k, hk, hname, ?_⟩
    simp only [execute_solids_trace_eq]
    rw [hnames]

/-- C1 witness: the `test_yield_context` pipeline yields the trace
`[before, custom_context_transform, after]`, and its always-failing variant
still ends with the after-effect. -/
theorem scoped_context_effect_ordering_witness :
    (execute_pipeline yield_pipeline env_custom_one true 0).trace
        = ["before"]
          ++ (execute_pipeline yield_pipeline env_custom_one true 0).steps.map
              StepRecord.name
          ++ ["after"]
    ∧ (execute_pipeline yield_failing_pipeline env_custom_one true 1).trace
        = ["before"]
          ++ (execute_pipeline yield_failing_pipeline env_custom_one true 1).steps.map
              StepRecord.name
          ++ ["after"] :=
  ⟨(scoped_context_effect_ordering yield_pipeline env_custom_one 0
      ⟨some custom_dict_shape, yield_context_fn⟩
      (fun init => ⟨["before"],
        ⟨some init.config, [("foo", .str "bar")], [⟨"INFO"⟩]⟩, ["after"]⟩)
      [("field_one", .str "value_two")] rfl rfl rfl).1,
   (scoped_context_effect_ordering yield_failing_pipeline env_custom_one 1
      ⟨some custom_dict_shape, yield_context_fn⟩
      (fun init => ⟨["before"],
        ⟨some init.config, [("foo", .str "bar")], [⟨"INFO"⟩]⟩, ["after"]⟩)
      [("field_one", .str "value_two")] rfl rfl rfl).1⟩

/-- C2 counterexample: resolving the undeclared context name `not_found`
fails with a `DagsterTypeError` (as the shipped test expects), not with an
`InvariantViolationError` as the claim states. -/
theorem context_not_found_error_is_type_error :
    (execute_pipeline default_context_pipeline env_not_found true 0).outcome
        = .error (.type_error "Context not_found does not exist")
    ∧ ∀ m, (execute_pipeline default_context_pipeline env_not_found true 0).outcome
        ≠ .error (.invariant_violation m) := by
  refine ⟨rfl, ?_⟩
  intro m h
  rw [show (execute_pipeline default_context_pipeline env_not_found true 0).outcome
      = .error (.type_error "Context not_found does not exist") from rfl] at h
  simp at h

/-- C2 (amended): for every pipeline and environment whose selected
context-definition name is not among the pipeline's declared context
definitions, the run fails with a `DagsterTypeError` whose message
references that name, the context is never constructed and no solid
executes. -/
theorem context_not_found_fails_no_solids
    (p : PipelineDefinition) (env : Environment) (toe : Bool) (n : Nat)
    (h : List.lookup env.context_name p.context_definitions = none) :
    (execute_pipeline p env toe n).outcome
        = .error (.type_error ("Context " ++ env.context_name ++ " does not exist"))
    ∧ (execute_pipeline p env toe n).context_init = none
    ∧ (execute_pipeline p env toe n).steps = []
    ∧ (execute_pipeline p env toe n).trace = [] := by
  simp [execute_pipeline, execute_pipeline_core, resolve_context, h]

/-- C2 witness: the `test_invalid_context` scenario — the default-context
pipeline run with context name `not_found`. -/
theorem context_not_found_fails_no_solids_witness :
    (execute_pipeline default_context_pipeline env_not_found false 3).outcome
        = .error (.type_error "Context not_found does not exist")
    ∧ (execute_pipeline default_context_pipeline env_not_found false 3).context_init = none
    ∧ (execute_pipeline default_context_pipeline env_not_found false 3).steps = []
    ∧ (execute_pipeline default_context_pipeline env_not_found false 3).trace = [] :=
  context_not_found_fails_no_solids default_context_pipeline env_not_found false 3 rfl

/-- C3 counterexample: the synthetic default context does not reject every
supplied key — supplying `{log_level: 'INFO'}` (a key its shape declares)
succeeds and constructs the context, as `test_default_context_with_log_level`
expects. -/
theorem default_context_accepts_log_level_key :
    (execute_pipeline log_pipeline env_log_level_ok true 0).outcome = .ok ()
    ∧ (execute_pipeline log_pipeline env_log_level_ok true 0).context_init
        = some ⟨gen_run_id 0, .dict [("log_level", .str "INFO")]⟩ :=
  ⟨rfl, rfl⟩

/-- C3 (amended): for every environment that supplies a key not declared in
the selected context definition's config shape, the run fails with a
`DagsterTypeError` before any context is constructed and before any solid
executes — including the synthetic default context, whose shape declares
only the engine's `log_level` field, so any other supplied key is
unexpected. -/
theorem undeclared_config_key_fails_before_context
    (p : PipelineDefinition) (env : Environment) (toe : Bool) (n : Nat)
    (cdef : PipelineContextDefinition) (k : String) (v : ConfigValue)
    (hres : resolve_context p env.context_name = .ok cdef)
    (hkmem : (k, v) ∈ env.context_config)
    (hk : has_key (cdef.config_field.getD []) k = false) :
    (∃ m, (execute_pipeline p env toe n).outcome = .error (.type_error m))
    ∧ (execute_pipeline p env toe n).context_init = none
    ∧ (execute_pipeline p env toe n).steps = []
    ∧ (execute_pipeline p env toe n).trace = [] := by
  obtain ⟨m, hm⟩ := validate_config_undefined_key _ _ k v hkmem hk
  refine ⟨⟨m, ?_⟩, ?_, ?_, ?_⟩ <;>
    simp [execute_pipeline, execute_pipeline_core, hres, hm]

/-- C3 witness: the `test_invalid_context` scenario — the default context
supplied with the undeclared key `unexpected`. -/
theorem undeclared_config_key_fails_before_context_witness :
    (∃ m, (execute_pipeline default_context_pipeline env_unexpected true 0).outcome
        = .error (.type_error m))
    ∧ (execute_pipeline default_context_pipeline env_unexpected true 0).context_init = none
    ∧ (execute_pipeline default_context_pipeline env_unexpected true 0).steps = []
    ∧ (execute_pipeline default_context_pipeline env_unexpected true 0).trace = [] :=
  undeclared_config_key_fails_before_context default_context_pipeline env_unexpected
    true 0 default_context_definition "unexpected" (.str "value") rfl
    (List.mem_cons_self _ _) rfl

/-- C4: validation fails whenever a required field (no default, not
optional) is absent from the raw value, and whenever a present value fails
its declared scalar type check; in particular the mistyped `{log_level: 2}`
fails before any context (hence any logger) is constructed and before any
solid executes. -/
theorem config_validation_missing_and_mistyped :
    (∀ (shape : ConfigDictShape) (raw : List (String × ConfigValue))
        (k : String) (f : Field),
      (k, f) ∈ shape → List.lookup k raw = none → f.is_optional = false →
      f.default_value = none → ∃ e, validate_config shape raw = .error e)
    ∧ (∀ (shape : ConfigDictShape) (raw : List (String × ConfigValue)) (k : String)
        (f : Field) (v : ConfigValue),
      (k, f) ∈ shape → List.lookup k raw = some v →
      type_check f.dagster_type v = false → ∃ e, validate_config shape raw = .error e)
    ∧ ((∃ m, (execute_pipeline log_pipeline env_log_level_bad true 0).outcome
          = .error (.type_error m))
       ∧ (execute_pipeline log_pipeline env_log_level_bad true 0).context_init = none
       ∧ (execute_pipeline log_pipeline env_log_level_bad true 0).steps = []) := by
  refine ⟨validate_config_missing_required, validate_config_type_mismatch, ⟨_, rfl⟩, rfl, rfl⟩

/-- C4 witness: the argful shape of `test_invalid_context` fails on a
missing required `string_field` and on the mistyped `{string_field: 1}`. -/
theorem config_validation_missing_and_mistyped_witness :
    (∃ e, validate_config [("string_field", ⟨.string, false, none⟩)] [] = .error e)
    ∧ (∃ e, validate_config [("string_field", ⟨.string, false, none⟩)]
        [("string_field", .int 1)] = .error e) :=
  ⟨config_validation_missing_and_mistyped.1 _ _ "string_field" ⟨.string, false, none⟩
     (List.mem_cons_self _ _) rfl rfl rfl,
   config_validation_missing_and_mistyped.2.1 _ _ "string_field" ⟨.string, false, none⟩
     (.int 1) (List.mem_cons_self _ _) rfl rfl⟩

/-- C5: the engine threads the constructed context to every step with no
filtering — each step observes exactly the context the constructing
procedure produced; concretely, selecting `custom_one` or `custom_two` with
`{field_one: 'value_two'}` succeeds and the solid observes
`resources == {field_one: 'value_two'}`. -/
theorem custom_context_resources_exact :
    (∀ (p : PipelineDefinition) (env : Environment) (toe : Bool) (n : Nat)
        (cdef : PipelineContextDefinition) (g : ContextInit → ExecutionContext)
        (bound : List (String × ConfigValue)),
      resolve_context p env.context_name = .ok cdef →
      cdef.context_fn = .direct g →
      validate_config (cdef.config_field.getD []) env.context_config = .ok bound →
      ∀ r ∈ (execute_pipeline p env toe n).steps,
        r.info.context = g ⟨gen_run_id n, .dict bound⟩)
    ∧ (execute_pipeline custom_contexts_pipeline env_custom_one true 0).outcome = .ok ()
    ∧ (execute_pipeline custom_contexts_pipeline env_custom_two true 1).outcome = .ok ()
    ∧ (execute_pipeline custom_contexts_pipeline env_custom_one true 0).steps.map
        (fun r => r.info.context.resources)
        = [some (.dict [("field_one", .str "value_two")])]
    ∧ (execute_pipeline custom_contexts_pipeline env_custom_two true 1).steps.map
        (fun r => r.info.context.resources)
        = [some (.dict [("field_one", .str "value_two")])] := by
  refine ⟨?_, rfl, rfl, rfl, rfl⟩
  intro p env toe n cdef g bound hres hfn hval
  simp only [execute_pipeline, execute_pipeline_core, hres, hval, hfn, run_context_fn]
  intro r hr
  exact (execute_solids_info _ _ _ _ _ r hr).2

/-- C5 witness: every step of the `custom_one` run observes exactly the
context built by `lambda info: ExecutionContext(resources=info.config)`. -/
theorem custom_context_resources_exact_witness :
    ∀ r ∈ (execute_pipeline custom_contexts_pipeline env_custom_one true 2).steps,
      r.info.context
        = ⟨some (.dict [("field_one", .str "value_two")]), [], [⟨"INFO"⟩]⟩ :=
  custom_context_resources_exact.1 custom_contexts_pipeline env_custom_one true 2
    ⟨some custom_dict_shape, resources_from_config_fn⟩
    (fun init => ⟨some init.config, [], [⟨"INFO"⟩]⟩)
    [("field_one", .str "value_two")] rfl rfl rfl

/-- C6: with a shape declaring `field_one` as an optional string defaulting
to `'heyo'`, running with empty context config succeeds, binds
`field_one == 'heyo'` and the solid observes
`resources == {field_one: 'heyo'}`. -/
theorem default_value_filled_from_shape :
    (execute_pipeline default_value_pipeline env_default_value true 0).outcome = .ok ()
    ∧ (execute_pipeline default_value_pipeline env_default_value true 0).context_init
        = some ⟨gen_run_id 0, .dict [("field_one", .str "heyo")]⟩
    ∧ (execute_pipeline default_value_pipeline env_default_value true 0).steps.map
        (fun r => r.info.context.resources)
        = [some (.dict [("field_one", .str "heyo")])] :=
  ⟨rfl, rfl, rfl⟩

/-- C7: a pipeline constructed with no context definitions gets the
synthetic `default` definition, requiring no config; running it with the
empty environment succeeds, every solid runs, and every logger each solid
observes is at the default INFO level. -/
theorem synthetic_default_context_installed (solids : List SolidDefinition) (n : Nat)
    (hcf : ∀ s ∈ solids, s.config_field = none)
    (hok : ∀ s ∈ solids, ∀ i, (s.compute i).isOk = true) :
    (mk_pipeline solids []).context_definitions
        = [("default", default_context_definition)]
    ∧ (execute_pipeline (mk_pipeline solids []) empty_environment true n).outcome = .ok ()
    ∧ (execute_pipeline (mk_pipeline solids []) empty_environment true n).steps.map
        StepRecord.name = solids.map SolidDefinition.name
    ∧ ∀ r ∈ (execute_pipeline (mk_pipeline solids []) empty_environment true n).steps,
        ∀ l ∈ r.info.context.loggers, l.level = "INFO" := by
  have e1 : execute_pipeline (mk_pipeline solids []) empty_environment true n
      = ⟨(execute_solids empty_environment ⟨none, [], [⟨"INFO"⟩]⟩
            (gen_run_id n) true solids).trace ++ [],
         some ⟨gen_run_id n, .dict [("log_level", .str "INFO")]⟩,
         (execute_solids empty_environment ⟨none, [], [⟨"INFO"⟩]⟩
            (gen_run_id n) true solids).steps,
         (execute_solids empty_environment ⟨none, [], [⟨"INFO"⟩]⟩
            (gen_run_id n) true solids).outcome⟩ := rfl
  rw [execute_solids_all_ok empty_environment ⟨none, [], [⟨"INFO"⟩]⟩
      (gen_run_id n) true solids rfl hcf hok] at e1
  refine ⟨rfl, ?_, ?_, ?_⟩
  · rw [e1]
  · rw [e1]; simp
  · rw [e1]
    intro r hr
    simp only [List.mem_map] at hr
    obtain ⟨sd, _, hsd⟩ := hr
    subst hsd
    intro l hl
    simp only [List.mem_singleton] at hl
    subst hl
    rfl

/-- C7 witness: the synthesized default context on a one-solid pipeline. -/
theorem synthetic_default_context_installed_witness :
    (mk_pipeline [noop_solid] []).context_definitions
        = [("default", default_context_definition)]
    ∧ (execute_pipeline (mk_pipeline [noop_solid] []) empty_environment true 0).outcome
        = .ok ()
    ∧ (execute_pipeline (mk_pipeline [noop_solid] []) empty_environment true 0).steps.map
        StepRecord.name = [noop_solid].map SolidDefinition.name
    ∧ ∀ r ∈ (execute_pipeline (mk_pipeline [noop_solid] []) empty_environment true 0).steps,
        ∀ l ∈ r.info.context.loggers, l.level = "INFO" :=
  synthetic_default_context_installed [noop_solid] 0
    (fun s hs => by rw [List.mem_singleton.mp hs]; rfl)
    (fun s hs i => by rw [List.mem_singleton.mp hs]; rfl)

/-- C8: the run-identifier supply is injective (distinct runs get distinct
identifiers), and on every run reaching context construction the generated
identifier is the `run_id` of the info handed to the context-constructing
procedure and of every step's `ExecutionInfo`. -/
theorem fresh_run_id_threaded :
    (∀ m k, gen_run_id m = gen_run_id k → m = k)
    ∧ (∀ (p : PipelineDefinition) (env : Environment) (toe : Bool) (n : Nat)
        (cdef : PipelineContextDefinition) (bound : List (String × ConfigValue)),
      resolve_context p env.context_name = .ok cdef →
      validate_config (cdef.config_field.getD []) env.context_config = .ok bound →
      (execute_pipeline p env toe n).context_init = some ⟨gen_run_id n, .dict bound⟩
      ∧ ∀ r ∈ (execute_pipeline p env toe n).steps,
          r.info.run_id = gen_run_id n) := by
  refine ⟨gen_run_id_inj, ?_⟩
  intro p env toe n cdef bound hres hval
  have h1 : (execute_pipeline p env toe n).context_init
      = some ⟨gen_run_id n, .dict bound⟩ := by
    simp [execute_pipeline, execute_pipeline_core, hres, hval]
  have h2 : ∀ r ∈ (execute_pipeline p env toe n).steps,
      r.info.run_id = gen_run_id n := by
    simp only [execute_pipeline, execute_pipeline_core, hres, hval]
    exact fun r hr => (execute_solids_info _ _ _ _ _ r hr).1
  exact ⟨h1, h2⟩

/-- C8 witness: run 5 of the custom-contexts pipeline carries
`gen_run_id 5` to the context-constructing procedure and to each step. -/
theorem fresh_run_id_threaded_witness :
    (execute_pipeline custom_contexts_pipeline env_custom_one true 5).context_init
        = some ⟨gen_run_id 5, .dict [("field_one", .str "value_two")]⟩
    ∧ ∀ r ∈ (execute_pipeline custom_contexts_pipeline env_custom_one true 5).steps,
        r.info.run_id = gen_run_id 5 :=
  fresh_run_id_threaded.2 custom_contexts_pipeline env_custom_one true 5
    ⟨some custom_dict_shape, resources_from_config_fn⟩
    [("field_one", .str "value_two")] rfl rfl

/-- C9: config validation is a pure function — identical inputs give
identical results — and for well-formed shapes default-value filling is
idempotent: a bound value re-validates to itself. -/
theorem config_validation_deterministic_idempotent
    (shape : ConfigDictShape) (raw : List (String × ConfigValue)) :
    validate_config shape raw = validate_config shape raw
    ∧ (shape_wf shape → ∀ b, validate_config shape raw = .ok b →
        validate_config shape b = .ok b) :=
  ⟨rfl, fun hwf b h => validate_config_idem shape raw b hwf h⟩

/-- C9 witness: the default-value shape of `test_default_value` re-validates
its own bound value. -/
theorem config_validation_deterministic_idempotent_witness :
    validate_config [("field_one", ⟨.string, true, some (.str "heyo")⟩)]
        [("field_one", .str "heyo")]
      = .ok [("field_one", .str "heyo")] :=
  (config_validation_deterministic_idempotent
      [("field_one", ⟨.string, true, some (.str "heyo")⟩)] []).2
    (by constructor <;> decide) [("field_one", .str "heyo")] rfl

/-- C10: on a pipeline declaring no solids, a run still performs the full
resolve, validate, construct, teardown sequence — the outcome is success,
no step runs, the context-constructing procedure is invoked exactly once
with the generated run identifier, and the trace is exactly the context's
before-effects followed by its after-effects. -/
theorem empty_pipeline_full_lifecycle (ctx_defs : List (String × PipelineContextDefinition))
    (env : Environment) (n : Nat) (cdef : PipelineContextDefinition)
    (bound : List (String × ConfigValue))
    (hres : resolve_context (mk_pipeline [] ctx_defs) env.context_name = .ok cdef)
    (hval : validate_config (cdef.config_field.getD []) env.context_config = .ok bound) :
    (execute_pipeline (mk_pipeline [] ctx_defs) env true n).outcome = .ok ()
    ∧ (execute_pipeline (mk_pipeline [] ctx_defs) env true n).steps = []
    ∧ (execute_pipeline (mk_pipeline [] ctx_defs) env true n).context_init
        = some ⟨gen_run_id n, .dict bound⟩
    ∧ (execute_pipeline (mk_pipeline [] ctx_defs) env true n).trace
        = (run_context_fn cdef.context_fn ⟨gen_run_id n, .dict bound⟩).before_events
          ++ (run_context_fn cdef.context_fn ⟨gen_run_id n, .dict bound⟩).after_events := by
  simp only [execute_pipeline, execute_pipeline_core, hres, hval]
  simp [execute_solids]

/-- C10 witness: the `test_run_id` pipeline — no solids, a bare `default`
context definition, and the empty environment. -/
theorem empty_pipeline_full_lifecycle_witness :
    (execute_pipeline run_id_pipeline empty_environment true 0).outcome = .ok ()
    ∧ (execute_pipeline run_id_pipeline empty_environment true 0).steps = []
    ∧ (execute_pipeline run_id_pipeline empty_environment true 0).context_init
        = some ⟨gen_run_id 0, .dict []⟩
    ∧ (execute_pipeline run_id_pipeline empty_environment true 0).trace = [] :=
  empty_pipeline_full_lifecycle
    [("default", ⟨none, .direct fun _ => ExecutionContext.default⟩)]
    empty_environment 0 ⟨none, .direct fun _ => ExecutionContext.default⟩ [] rfl rfl

end Dagster
